import Mathlib

/-!
Verification of the CDenStream repository (`src/cdenstream/cdbscan.py`)
against its natural-language specification.

The dataset is modelled as a list of coordinate vectors over `ℚ`; the point
with index `i` is the `i`-th entry.  The Euclidean-distance comparison
`dist(a, b) <= r` used by `pairwise_distances(X=dataset, metric="euclidean")`
is encoded without square roots: for nonnegative `s = sqDist a b`,
`Real.sqrt s <= r` holds exactly when `0 <= r` and `s <= r * r`.
-/

namespace CDenStream

/-- Squared Euclidean distance between two coordinate vectors
(the vectors are zipped, so trailing coordinates of the longer one are
ignored; in the source all points share one dimensionality). -/
def sqDist (a b : List ℚ) : ℚ :=
  ((a.zip b).map (fun q => (q.1 - q.2) * (q.1 - q.2))).sum

/-- `dist(a, b) <= r` for the Euclidean metric, encoded over `ℚ`:
equivalent to `Real.sqrt (sqDist a b) <= r`. -/
def withinDist (a b : List ℚ) (r : ℚ) : Bool :=
  decide (0 ≤ r) && decide (sqDist a b ≤ r * r)

/-- Coordinate vector of the point with index `i` (rows of the `dataset`
array; out-of-range indices never occur on the valid inputs the claims
quantify over). -/
def point (dataset : List (List ℚ)) (i : ℕ) : List ℚ :=
  dataset.getD i []

/-- The inner function `compute_neighbors(element_index)` of
`compute_density_reachable_points`.  Faithful to the source: the body reads
`distances[point_index, i]`, so `element_index` is ignored and distances are
always measured from `point_index`. -/
def compute_neighbors (dataset : List (List ℚ)) (point_index : ℕ)
    (maximum_distance : ℚ) (element_index : ℕ) : List ℕ :=
  (List.range dataset.length).filter
    (fun i => withinDist (point dataset point_index) (point dataset i)
      maximum_distance)

/-- One step of accumulating neighborhoods into the reachable set:
`density_reachable.update(neighborhood)` executed over a list of
neighborhoods. -/
def updateAll (dr : Finset ℕ) (neighborhoods : List (List ℕ)) : Finset ℕ :=
  neighborhoods.foldl (fun s nb => s ∪ nb.toFinset) dr

/-- The `while new_points_to_explore` loop of
`compute_density_reachable_points`, with explicit fuel standing for the
number of remaining iterations the loop may execute.  Each iteration
computes the neighborhoods of the not-yet-visited reachable points, marks
all current points visited, unions the neighborhoods in, and continues
exactly when the cardinality grew.  The unvisited members are enumerated in
ascending index order here; `drLoopOrd` below enumerates them in an
arbitrary order. -/
def drLoop (dataset : List (List ℚ)) (point_index : ℕ)
    (maximum_distance : ℚ) :
    ℕ → Finset ℕ → Finset ℕ → Finset ℕ
  | 0, _, density_reachable => density_reachable
  | fuel + 1, points_already_visited, density_reachable =>
    let old_reachable_point_count := density_reachable.card
    let reachable_neighborhoods :=
      ((density_reachable.filter
          (fun i => i ∉ points_already_visited)).sort (· ≤ ·)).map
        (compute_neighbors dataset point_index maximum_distance)
    let visited := points_already_visited ∪ density_reachable
    let dr := updateAll density_reachable reachable_neighborhoods
    if old_reachable_point_count < dr.card then
      drLoop dataset point_index maximum_distance fuel visited dr
    else dr

/-- `compute_density_reachable_points(dataset, point_index,
maximum_distance)`: start from the neighborhood of the point and run the
fixpoint loop.  The fuel `dataset.length + 1` over-approximates the number
of iterations the Python loop can execute (the set grows strictly between
iterations and is bounded by the number of points); `drLoop_fuel_irrelevant`
below proves the result does not depend on this choice. -/
def compute_density_reachable_points (dataset : List (List ℚ))
    (point_index : ℕ) (maximum_distance : ℚ) : Finset ℕ :=
  drLoop dataset point_index maximum_distance (dataset.length + 1) ∅
    (compute_neighbors dataset point_index maximum_distance
      point_index).toFinset

/-- The set `{i < N : dist(point p, point i) <= r}`: the direct
`epsilon`-neighborhood of point `p`, as a canonical `Finset` (no list
ordering involved). -/
def directNeighborhood (dataset : List (List ℚ)) (p : ℕ) (r : ℚ) :
    Finset ℕ :=
  (Finset.range dataset.length).filter
    (fun i => withinDist (point dataset p) (point dataset i) r = true)

/-- The true neighborhood of `q` per the spec (§3): distances measured from
`q` itself, not from the seed point. -/
def trueNeighborhood (dataset : List (List ℚ)) (q : ℕ) (r : ℚ) : Finset ℕ :=
  (Finset.range dataset.length).filter
    (fun i => withinDist (point dataset q) (point dataset i) r = true)

/-- One round of the closure described by the spec (§3): union in the true
neighborhood of every point already in the set. -/
def closureStep (dataset : List (List ℚ)) (r : ℚ) (s : Finset ℕ) :
    Finset ℕ :=
  s ∪ s.biUnion (fun q => trueNeighborhood dataset q r)

/-- The density-reachable closure as the spec words it (§3): starting from
`{p} ∪ Neighborhood(p, r)`, repeatedly union `Neighborhood(q, r)` for every
`q` already in the set until no new points are added.  Iterating
`dataset.length` times reaches the fixpoint since the set grows inside
`range dataset.length ∪ {p}`. -/
def specClosure (dataset : List (List ℚ)) (p : ℕ) (r : ℚ) : Finset ℕ :=
  (closureStep dataset r)^[dataset.length]
    ({p} ∪ trueNeighborhood dataset p r)

/-- Variant of `drLoop` whose iteration over the unvisited reachable points
follows an arbitrary enumeration order `sched` (any function producing a
permutation of the canonical enumeration), modelling the unspecified
iteration order of a Python `set`. -/
def drLoopOrd (dataset : List (List ℚ)) (point_index : ℕ)
    (maximum_distance : ℚ) (sched : List ℕ → List ℕ) :
    ℕ → Finset ℕ → Finset ℕ → Finset ℕ
  | 0, _, density_reachable => density_reachable
  | fuel + 1, points_already_visited, density_reachable =>
    let old_reachable_point_count := density_reachable.card
    let reachable_neighborhoods :=
      (sched ((density_reachable.filter
          (fun i => i ∉ points_already_visited)).sort (· ≤ ·))).map
        (compute_neighbors dataset point_index maximum_distance)
    let visited := points_already_visited ∪ density_reachable
    let dr := updateAll density_reachable reachable_neighborhoods
    if old_reachable_point_count < dr.card then
      drLoopOrd dataset point_index maximum_distance sched fuel visited dr
    else dr

/-- `cdbscan(dataset, epsilon, minpts, mustlink, cannotlink)` from the
source.  The Python body consists of a docstring describing the intended
algorithm followed by `return None`: no computation is performed and no
label sequence is produced, for any arguments. -/
def cdbscan (dataset : List (List ℚ)) (epsilon : ℚ) (minpts : ℕ)
    (mustlink : Option (List (ℕ × ℕ))) (cannotlink : Option (List (ℕ × ℕ))) :
    Option (List ℤ) :=
  none

/-! ## Helper lemmas -/

theorem compute_neighbors_toFinset (dataset : List (List ℚ)) (p : ℕ) (r : ℚ)
    (e : ℕ) :
    (compute_neighbors dataset p r e).toFinset = directNeighborhood dataset p r := by
  ext i
  simp [compute_neighbors, directNeighborhood]

theorem updateAll_eq (neighborhoods : List (List ℕ)) (dr : Finset ℕ) :
    updateAll dr neighborhoods =
      dr ∪ neighborhoods.toFinset.sup (fun nb => nb.toFinset) := by
  induction neighborhoods generalizing dr with
  | nil => simp [updateAll]
  | cons a l ih =>
    show updateAll (dr ∪ a.toFinset) l = _
    rw [ih (dr ∪ a.toFinset), List.toFinset_cons, Finset.sup_insert,
      Finset.sup_eq_union, Finset.union_assoc]

theorem toFinset_eq_of_perm {l₁ l₂ : List (List ℕ)} (h : l₁.Perm l₂) :
    l₁.toFinset = l₂.toFinset := by
  ext a
  simp [List.mem_toFinset, h.mem_iff]

theorem updateAll_perm (dr : Finset ℕ) {l₁ l₂ : List (List ℕ)}
    (h : l₁.Perm l₂) : updateAll dr l₁ = updateAll dr l₂ := by
  rw [updateAll_eq, updateAll_eq, toFinset_eq_of_perm h]

theorem drLoop_stable (dataset : List (List ℚ)) (p : ℕ) (r : ℚ)
    (dr : Finset ℕ) (hsub : directNeighborhood dataset p r ⊆ dr)
    (fuel : ℕ) (visited : Finset ℕ) :
    drLoop dataset p r fuel visited dr = dr := by
  cases fuel with
  | zero => rfl
  | succ n =>
    have hupd : updateAll dr
        (((dr.filter (fun i => i ∉ visited)).sort (· ≤ ·)).map
          (compute_neighbors dataset p r)) = dr := by
      rw [updateAll_eq]
      apply Finset.union_eq_left.mpr
      rw [← Finset.le_iff_subset]
      apply Finset.sup_le
      intro nb hnb
      rcases List.mem_map.mp (List.mem_toFinset.mp hnb) with ⟨i, _, hi⟩
      rw [Finset.le_iff_subset, ← hi, compute_neighbors_toFinset]
      exact hsub
    simp only [drLoop]
    rw [hupd]
    simp

theorem compute_density_reachable_points_eq (dataset : List (List ℚ))
    (p : ℕ) (r : ℚ) :
    compute_density_reachable_points dataset p r =
      directNeighborhood dataset p r := by
  unfold compute_density_reachable_points
  rw [compute_neighbors_toFinset]
  exact drLoop_stable dataset p r _ (Finset.Subset.refl _) _ _

theorem sqDist_self (a : List ℚ) : sqDist a a = 0 := by
  induction a with
  | nil => rfl
  | cons x t ih => simp [sqDist, List.zip_cons_cons] at ih ⊢; simpa [sqDist] using ih

theorem subset_closureStep (dataset : List (List ℚ)) (r : ℚ) (s : Finset ℕ) :
    s ⊆ closureStep dataset r s :=
  Finset.subset_union_left

theorem subset_iterate_closureStep (dataset : List (List ℚ)) (r : ℚ) :
    ∀ (n : ℕ) (s : Finset ℕ), s ⊆ (closureStep dataset r)^[n] s := by
  intro n
  induction n with
  | zero => intro s; simp
  | succ k ih =>
    intro s
    rw [Function.iterate_succ_apply]
    exact (subset_closureStep dataset r s).trans (ih _)

theorem mem_iterate_closureStep (dataset : List (List ℚ)) (r : ℚ)
    (s : Finset ℕ) (x : ℕ) (hx : x ∈ closureStep dataset r s) (n : ℕ) :
    x ∈ (closureStep dataset r)^[n + 1] s := by
  rw [Function.iterate_succ_apply]
  exact subset_iterate_closureStep dataset r n _ hx

/-! ## Claim theorems -/

/-- Claim C1 (code bug, evaluation at the failing input): on the dataset
`[[0],[2],[4]]` with seed `0` and radius `2`, the spec's closure (the minimal
fixpoint of the neighborhood-union operator) contains point `2`, but
`compute_density_reachable_points` does not return it: the code returns only
the direct neighborhood of the seed, because its inner `compute_neighbors`
ignores `element_index` and always measures distances from `point_index`. -/
theorem density_reachable_misses_closure_point :
    2 ∈ specClosure [[0],[2],[4]] 0 2 ∧
      2 ∉ compute_density_reachable_points [[0],[2],[4]] 0 2 := by
  constructor
  · have h1 : (1:ℕ) ∈ ({0} ∪ trueNeighborhood [[0],[2],[4]] 0 2 : Finset ℕ) := by
      apply Finset.mem_union_right
      simp only [trueNeighborhood, Finset.mem_filter, Finset.mem_range]
      refine ⟨by norm_num, ?_⟩
      norm_num [point, withinDist, sqDist]
    have h2 : (2:ℕ) ∈ closureStep [[0],[2],[4]] 2
        ({0} ∪ trueNeighborhood [[0],[2],[4]] 0 2) := by
      apply Finset.mem_union_right
      apply Finset.mem_biUnion.mpr
      refine ⟨1, h1, ?_⟩
      simp only [trueNeighborhood, Finset.mem_filter, Finset.mem_range]
      refine ⟨by norm_num, ?_⟩
      norm_num [point, withinDist, sqDist]
    exact mem_iterate_closureStep [[0],[2],[4]] 2 _ 2 h2 2
  · rw [compute_density_reachable_points_eq]
    simp only [directNeighborhood, Finset.mem_filter, Finset.mem_range]
    intro h
    rcases h with ⟨-, hw⟩
    norm_num [point, withinDist, sqDist] at hw

/-- Claim C2: for every dataset and every combination of epsilon, minpts,
mustlink and cannotlink arguments, the public clustering operation `cdbscan`
returns `None`: no label sequence is ever produced and no input-dependent
computation is performed. -/
theorem cdbscan_always_none (dataset : List (List ℚ)) (epsilon : ℚ)
    (minpts : ℕ) (mustlink cannotlink : Option (List (ℕ × ℕ))) :
    cdbscan dataset epsilon minpts mustlink cannotlink = none := rfl

/-- Claim C3 (code bug, evaluation at the failing input): on the 6-point
dataset of the repository's own test `test_easy_clusters_no_constraints`
with valid parameters `epsilon = 5`, `minpts = 2`, `cdbscan` returns `None`
instead of the claimed sequence of 6 labels. -/
theorem cdbscan_no_labels_on_test_input :
    cdbscan [[1,1],[52,3],[1,2],[2,3],[50,4],[51,2]] 5 2 none none = none := rfl

/-- Claim C4: for every dataset, every valid point index `p` and every
radius `r > 0`, the set returned by `compute_density_reachable_points`
contains `p` itself. -/
theorem density_reachable_contains_seed (dataset : List (List ℚ)) (p : ℕ) (r : ℚ)
    (hp : p < dataset.length) (hr : 0 < r) :
    p ∈ compute_density_reachable_points dataset p r := by
  rw [compute_density_reachable_points_eq]
  simp only [directNeighborhood, Finset.mem_filter, Finset.mem_range]
  refine ⟨hp, ?_⟩
  simp only [withinDist, sqDist_self, Bool.and_eq_true, decide_eq_true_eq]
  exact ⟨le_of_lt hr, mul_nonneg (le_of_lt hr) (le_of_lt hr)⟩

/-- Witness for C4 at dataset `[[0],[2],[4]]`, seed `0`, radius `2`. -/
theorem density_reachable_contains_seed_witness :
    (0 : ℕ) < ([[0],[2],[4]] : List (List ℚ)).length ∧ (0:ℚ) < 2 ∧
      0 ∈ compute_density_reachable_points [[0],[2],[4]] 0 2 :=
  ⟨by decide, by decide,
    density_reachable_contains_seed [[0],[2],[4]] 0 2 (by decide) (by decide)⟩

/-- Claim C5: the result of the density-reachability loop does not depend on
the order in which the unvisited reachable points are enumerated: for every
reordering `sched` that permutes the enumeration, the loop run under `sched`
at any state equals the canonical run, and in particular produces exactly
`compute_density_reachable_points` from the initial state — the function is
deterministic with no hidden shared state. -/
theorem density_reachable_order_independent (dataset : List (List ℚ)) (p : ℕ)
    (r : ℚ) (sched : List ℕ → List ℕ)
    (hsched : ∀ l : List ℕ, (sched l).Perm l) :
    (∀ (fuel : ℕ) (visited dr : Finset ℕ),
        drLoopOrd dataset p r sched fuel visited dr =
          drLoop dataset p r fuel visited dr) ∧
      drLoopOrd dataset p r sched (dataset.length + 1) ∅
          (compute_neighbors dataset p r p).toFinset =
        compute_density_reachable_points dataset p r := by
  have main : ∀ (fuel : ℕ) (visited dr : Finset ℕ),
      drLoopOrd dataset p r sched fuel visited dr =
        drLoop dataset p r fuel visited dr := by
    intro fuel
    induction fuel with
    | zero => intro v dr; rfl
    | succ n ih =>
      intro v dr
      simp only [drLoopOrd, drLoop]
      rw [updateAll_perm dr ((hsched _).map (compute_neighbors dataset p r))]
      split_ifs with h
      · exact ih _ _
      · rfl
  exact ⟨main, main _ _ _⟩

/-- Witness for C5 with the reversal reordering at dataset `[[0],[2],[4]]`,
seed `0`, radius `2`. -/
theorem density_reachable_order_independent_witness :
    (∀ l : List ℕ, (List.reverse l).Perm l) ∧
      drLoopOrd [[0],[2],[4]] 0 2 List.reverse 4 ∅
          (compute_neighbors [[0],[2],[4]] 0 2 0).toFinset =
        compute_density_reachable_points [[0],[2],[4]] 0 2 :=
  ⟨fun l => List.reverse_perm l,
    (density_reachable_order_independent [[0],[2],[4]] 0 2 List.reverse
      (fun l => List.reverse_perm l)).2⟩

/-- Claim C6: for every dataset, valid or not point index `p` and radius
`r ≥ 0`, the inner `compute_neighbors` ignores its `element_index` argument,
and consequently `compute_density_reachable_points` returns exactly the
direct neighborhood `{i < N : dist(p, i) ≤ r}` — the iterated closure adds no
point beyond the first neighborhood. -/
theorem density_reachable_eq_direct_neighborhood (dataset : List (List ℚ))
    (p : ℕ) (r : ℚ) (hr : 0 ≤ r) :
    (∀ e₁ e₂ : ℕ,
        compute_neighbors dataset p r e₁ = compute_neighbors dataset p r e₂) ∧
      compute_density_reachable_points dataset p r =
        directNeighborhood dataset p r :=
  ⟨fun _ _ => rfl, compute_density_reachable_points_eq dataset p r⟩

/-- Witness for C6 at dataset `[[0],[2],[4]]`, seed `0`, radius `2`. -/
theorem density_reachable_eq_direct_neighborhood_witness :
    (0:ℚ) ≤ 2 ∧
      compute_density_reachable_points [[0],[2],[4]] 0 2 =
        directNeighborhood [[0],[2],[4]] 0 2 :=
  ⟨by decide,
    (density_reachable_eq_direct_neighborhood [[0],[2],[4]] 0 2 (by decide)).2⟩

/-- Claim C7: the fixpoint loop of `compute_density_reachable_points`
terminates: starting from the initial state, every fuel bound (even `0`)
yields the same final set as the bound `dataset.length + 1` used in the
definition, so the loop reaches its stable state within the cardinality
bound, and the result has at most as many points as the dataset. -/
theorem drLoop_fuel_irrelevant (dataset : List (List ℚ)) (p : ℕ) (r : ℚ)
    (fuel : ℕ) :
    drLoop dataset p r fuel ∅ (compute_neighbors dataset p r p).toFinset =
        compute_density_reachable_points dataset p r ∧
      (compute_density_reachable_points dataset p r).card ≤ dataset.length := by
  constructor
  · rw [compute_neighbors_toFinset,
      drLoop_stable dataset p r _ (Finset.Subset.refl _) fuel ∅,
      compute_density_reachable_points_eq]
  · rw [compute_density_reachable_points_eq]
    exact (Finset.card_filter_le _ _).trans (le_of_eq (Finset.card_range _))

/-- Claim C8 (code bug, evaluation at the failing input): on the dataset of
the repository's test `test_mustlink_merging` with the MustLink pair
`(0, 1)`, `cdbscan` returns `None`: no labels exist, so
`label(0) = label(1) ≥ 0` cannot hold. -/
theorem cdbscan_no_labels_for_mustlink_input :
    cdbscan [[1,1],[52,3],[1,2],[50,4],[2,3],[51,2]] 5 2
      (some [(0,1)]) none = none := rfl

/-- Claim C9 (code bug, evaluation at the failing input): calling `cdbscan`
with `epsilon = -1 ≤ 0` and `minpts = 0 < 1` is not rejected: the call
returns `None` exactly like every other call, raising no `InvalidParameter`
error. -/
theorem cdbscan_invalid_params_not_rejected :
    cdbscan [[1,1],[52,3],[1,2],[2,3],[50,4],[51,2]] (-1) 0 none none = none := rfl

/-- Claim C10 (code bug, evaluation at the failing input): calling `cdbscan`
on the empty dataset with valid parameters returns `None`, not the empty
label sequence `some []`. -/
theorem cdbscan_empty_dataset_returns_none :
    cdbscan [] (1/100) 5 none none = none := rfl

end CDenStream
